import Mathlib

/-!
Verification of the zabaan_backend auth core: the JWT token lifecycle
service (issue, validate, revocation check) and the sliding-window auth
rate limiter, shallowly embedded from the Go source.

Instants and durations are modelled as microseconds (Nat for token-side
times, which are nonnegative; Int for limiter timestamps, where the
cutoff now - window may go negative). Go time.Truncate(time.Second)
rounds down to a whole-second multiple, modelled by truncSec.

The HMAC-SHA256 signature of the golang-jwt library is modelled
abstractly: a signature is the triple of algorithm, key and signed
claims, and verification is equality with the recomputed triple. The
external net.ParseIP and net.SplitHostPort functions are parameters of
the client-key resolution model.
-/

namespace Zabaan

/-- Microseconds in one second. -/
def usecPerSec : Nat := 1000000

/-- Go time.Truncate(time.Second): round down to a whole-second multiple. -/
def truncSec (t : Nat) : Nat := t / usecPerSec * usecPerSec

/-- JWT signing algorithm declared in the token header. The Go code
configures exactly jwt.SigningMethodHS256. -/
inductive Alg where
  | HS256
  | other (name : String)
deriving DecidableEq, Repr

/-- JWT claims as built by CreateTokenWithIssuedAt: Subject, Email,
ExpiresAt and IssuedAt (jwt.RegisteredClaims pointers modelled as
Option). Times in microseconds. -/
structure Claims where
  subject : String
  email : String
  expiresAt : Option Nat
  issuedAt : Option Nat
deriving DecidableEq, Repr

/-- Abstract HMAC signature: determined by the algorithm, the key and
the signed claims, and by nothing else. -/
structure Signature where
  alg : Alg
  key : String
  payload : Claims
deriving DecidableEq, Repr

/-- A decoded token: header algorithm, claims payload, signature. -/
structure Token where
  alg : Alg
  claims : Claims
  sig : Signature
deriving DecidableEq, Repr

/-- Error taxonomy of the auth package. ErrTokenInvalid wrappings made
with fmt.Errorf are collapsed, since errors.Is still matches them;
storeError carries the error string returned by the user repository,
which the Go code propagates unchanged. -/
inductive SvcError where
  | configError (msg : String)
  | tokenInvalid
  | tokenRevoked
  | storeError (e : String)
deriving DecidableEq, Repr

/-- The Claims literal built inside CreateTokenWithIssuedAt: Subject is
the decimal rendering fmt.Sprintf of userID, ExpiresAt is
issuedAt + expiry and IssuedAt is issuedAt, both passed through
jwt.NewNumericDate, which truncates to the library TimePrecision of one
second. -/
def issueClaims (userID : Nat) (email : String) (issuedAt expiry : Nat) :
    Claims :=
  { subject := Nat.repr userID
    email := email
    expiresAt := some (truncSec (issuedAt + expiry))
    issuedAt := some (truncSec issuedAt) }

/-- jwt.NewWithClaims(jwt.SigningMethodHS256, claims) followed by
token.SignedString(secret): an HS256 token over the claims. -/
def signedToken (secret : String) (c : Claims) : Token :=
  { alg := .HS256, claims := c, sig := ⟨.HS256, secret, c⟩ }

/-- CreateTokenWithIssuedAt from the Go source: rejects an empty secret,
otherwise signs the issued claims with HS256. -/
def CreateTokenWithIssuedAt (secret : String) (userID : Nat) (email : String)
    (issuedAt : Nat) (expiry : Nat) : Except SvcError Token :=
  if secret = "" then .error (.configError "JWT secret is empty")
  else .ok (signedToken secret (issueClaims userID email issuedAt expiry))

/-- ValidateToken from the Go source: rejects an empty secret; the
keyfunc passed to jwt.ParseWithClaims rejects any signing method other
than HS256; the library then verifies the signature with the secret and
validates ExpiresAt against the current time (valid while now is before
exp); every parse failure is wrapped into ErrTokenInvalid. -/
def ValidateToken (secret : String) (tok : Token) (now : Nat) :
    Except SvcError Claims :=
  if secret = "" then .error (.configError "JWT secret is empty")
  else if tok.alg ≠ Alg.HS256 then .error .tokenInvalid
  else if tok.sig ≠ ⟨Alg.HS256, secret, tok.claims⟩ then .error .tokenInvalid
  else
    match tok.claims.expiresAt with
    | some e => if now < e then .ok tok.claims else .error .tokenInvalid
    | none => .ok tok.claims

/-- strconv.ParseUint(s, 10, 64): nonempty all-digit decimal string
fitting in 64 bits. -/
def parseUint64 (s : String) : Option Nat :=
  if s.data = [] then none
  else if s.data.all (fun c => c.isDigit) then
    let v := s.data.foldl (fun a c => a * 10 + (c.toNat - 48)) 0
    if v < 2 ^ 64 then some v else none
  else none

/-- The auth Service fields used by validation: the JWT secret and the
revocation tolerance (tokenExpiry is not consulted on the validate
path). -/
structure Service where
  jwtSecret : String
  revocationTolerance : Nat

/-- Service.ValidateTokenFull from the Go source: validate the JWT,
parse the subject as a uint (ErrTokenInvalid on failure), look up
token_valid_after through the user repository (the repository error is
returned unchanged on failure), and when the stored mark is non-zero and
the token has an IssuedAt, reject with ErrTokenRevoked when the
issued-at truncated to seconds plus the tolerance is strictly before the
mark truncated to seconds. The repository lookup is the repo parameter:
userID to either a store error or the stored mark (0 = zero time = no
revocation). -/
def Service.ValidateTokenFull (s : Service) (repo : Nat → Except String Nat)
    (tok : Token) (now : Nat) : Except SvcError Claims :=
  match ValidateToken s.jwtSecret tok now with
  | .error e => .error e
  | .ok claims =>
    match parseUint64 claims.subject with
    | none => .error .tokenInvalid
    | some uid =>
      match repo uid with
      | .error e => .error (.storeError e)
      | .ok validAfter =>
        if validAfter ≠ 0 then
          match claims.issuedAt with
          | some iat =>
            if truncSec iat + s.revocationTolerance < truncSec validAfter then
              .error .tokenRevoked
            else .ok claims
          | none => .ok claims
        else .ok claims

/-! ## Sliding-window auth rate limiter (middleware.AuthRateLimiter) -/

/-- AuthRateLimiter state: requests maps a client key to its recorded
timestamps, as a total function (a missing Go map key reads as the nil
slice, i.e. the empty list, and delete makes the key read as empty
again). Timestamps are Int microseconds so that cutoff = now - window is
representable for any now. -/
structure Limiter where
  requests : String → List Int
  window : Int
  maxReq : Nat

/-- Pointwise map update (Go map assignment; assigning the empty list is
observationally the same as delete). -/
def updateMap (m : String → List Int) (k : String) (v : List Int) :
    String → List Int :=
  fun q => if q = k then v else m q

/-- The keep-filter of allow and pruneIdleKeys: t.After(cutoff), i.e.
strictly greater. -/
def keepAfter (cutoff : Int) (l : List Int) : List Int :=
  l.filter (fun t => decide (cutoff < t))

/-- AuthRateLimiter.pruneIdleKeys: every key keeps only its timestamps
after the cutoff; a key whose filtered list is empty is deleted, which
under the total-function model is the same as storing the empty list. -/
def pruneIdleKeys (cutoff : Int) (m : String → List Int) :
    String → List Int :=
  fun q => keepAfter cutoff (m q)

/-- AuthRateLimiter.allow from the Go source: compute cutoff =
now - window, prune the callers list, deny (storing the pruned list
back) when the pruned length has reached maxReq; otherwise, on the
transition where the pruned list became empty, delete the key and prune
all idle keys, then append now and admit. Returns the admission decision
and the next state. -/
def Limiter.allow (l : Limiter) (ip : String) (now : Int) :
    Bool × Limiter :=
  let cutoff := now - l.window
  let kept := keepAfter cutoff (l.requests ip)
  if l.maxReq ≤ kept.length then
    (false, { l with requests := updateMap l.requests ip kept })
  else
    let base :=
      if kept.length = 0 then
        pruneIdleKeys cutoff (updateMap l.requests ip [])
      else l.requests
    (true, { l with requests := updateMap base ip (kept ++ [now]) })

/-- A fresh limiter: empty request map (NewAuthRateLimiter). -/
def Limiter.init (window : Int) (maxReq : Nat) : Limiter :=
  { requests := fun _ => [], window := window, maxReq := maxReq }

/-- Run a sequence of allow calls, collecting the decisions. -/
def Limiter.run (l : Limiter) : List (String × Int) → List Bool × Limiter
  | [] => ([], l)
  | (ip, now) :: rest =>
    let step := l.allow ip now
    let tail := step.2.run rest
    (step.1 :: tail.1, tail.2)

/-! ## Client key resolution (AuthRateLimiter.clientIP) -/

/-- The inbound request fields clientIP reads: the X-Real-IP and
X-Forwarded-For header values (Header.Get returns the empty string when
the header is absent) and the transport-level peer address RemoteAddr. -/
structure Request where
  xRealIP : String
  xForwardedFor : String
  remoteAddr : String

/-- The RemoteAddr fallback of clientIP: the host part of
net.SplitHostPort on success, the whole RemoteAddr on error. splitHost
abstracts net.SplitHostPort (none = error). -/
def remotePeer (splitHost : String → Option String) (r : Request) : String :=
  match splitHost r.remoteAddr with
  | some h => h
  | none => r.remoteAddr

/-- strings.TrimSpace: drop Unicode whitespace from both ends. -/
def trimSpace (s : String) : String :=
  ⟨((s.data.dropWhile Char.isWhitespace).reverse.dropWhile
      Char.isWhitespace).reverse⟩

/-- The prefix of s before its first comma (the whole of s when it has
no comma): models strings.Index(s, ",") followed by the slice s[:idx],
with first = s when the index is negative. -/
def beforeComma (s : String) : String :=
  ⟨s.data.takeWhile (fun c => c ≠ ',')⟩

/-- AuthRateLimiter.clientIP from the Go source. parseIP abstracts
net.ParseIP (true = parses as an IP); splitHost abstracts
net.SplitHostPort. In the Go code the no-comma branch leaves the
already-trimmed s2 untrimmed; trimSpace is idempotent, so applying
trimSpace to beforeComma covers both branches. -/
def clientIP (trustProxy : Bool) (parseIP : String → Bool)
    (splitHost : String → Option String) (r : Request) : String :=
  if trustProxy then
    let s := trimSpace r.xRealIP
    if s ≠ "" ∧ parseIP s then s
    else
      let s2 := trimSpace r.xForwardedFor
      let first := trimSpace (beforeComma s2)
      if s2 ≠ "" ∧ first ≠ "" ∧ parseIP first then first
      else remotePeer splitHost r
  else remotePeer splitHost r

/-- Modelled from the claim wording for comparison with clientIP: when
the trust-proxy flag is set, the key is the (trimmed) X-Real-IP value if
it parses as an IP, otherwise the first comma-separated address of
X-Forwarded-For if it parses as an IP, otherwise the transport-level
peer address; when the flag is unset, forwarded headers are ignored and
the key is always the transport-level peer address. -/
def resolveClientKeySpec (trustProxy : Bool) (parseIP : String → Bool)
    (splitHost : String → Option String) (r : Request) : String :=
  if trustProxy then
    let xri := trimSpace r.xRealIP
    if parseIP xri then xri
    else
      let first := trimSpace (beforeComma (trimSpace r.xForwardedFor))
      if parseIP first then first
      else remotePeer splitHost r
  else remotePeer splitHost r

/-! ## Decidable equality for results -/

instance {ε α : Type} [DecidableEq ε] [DecidableEq α] :
    DecidableEq (Except ε α) := fun a b =>
  match a, b with
  | .ok x, .ok y =>
    if h : x = y then .isTrue (h ▸ rfl)
    else .isFalse (fun hh => h (Except.ok.inj hh))
  | .ok _, .error _ => .isFalse (fun hh => Except.noConfusion hh)
  | .error _, .ok _ => .isFalse (fun hh => Except.noConfusion hh)
  | .error x, .error y =>
    if h : x = y then .isTrue (h ▸ rfl)
    else .isFalse (fun hh => h (Except.error.inj hh))

/-! ## Concrete fixtures for the spec scenarios

The end-to-end scenario of the spec: principal 42, revocation mark at
t = 5s, tolerance 2s, secret "k". -/

/-- The default 24h token lifetime, in microseconds. -/
def day : Nat := 24 * 3600 * usecPerSec

/-- One hour, a validation instant safely before expiry. -/
def hourU : Nat := 3600 * usecPerSec

/-- Scenario service: secret "k", revocation tolerance 2 seconds. -/
def svc : Service := { jwtSecret := "k", revocationTolerance := 2 * usecPerSec }

/-- Scenario repository: principal 42 carries the mark t = 5s; every
other principal has the zero mark. -/
def repo42 : Nat → Except String Nat :=
  fun uid => if uid = 42 then .ok (5 * usecPerSec) else .ok 0

/-- A repository whose lookup fails with a store error. -/
def repoErr : Nat → Except String Nat := fun _ => .error "db down"

/-- A repository holding a fractional-second mark of 5.5s. -/
def repoFrac : Nat → Except String Nat := fun _ => .ok 5500000

/-- The scenario token for principal 42 issued at t (the token
CreateTokenWithIssuedAt "k" 42 .. t day returns). -/
def tokAt (t : Nat) : Token := signedToken "k" (issueClaims 42 "u@example.com" t day)

/-- A well-signed token carrying an arbitrary issued-at claim value (a
parsed token may carry sub-second precision in iat even though the codec
itself truncates at issuance). -/
def craftedTok (iat : Nat) : Token :=
  signedToken "k" { subject := "42", email := "u@example.com",
                    expiresAt := some (iat + day), issuedAt := some iat }

/-- A well-signed token whose subject is not a decimal principal ID. -/
def badSubTok : Token :=
  signedToken "k" { subject := "abc", email := "u@example.com",
                    expiresAt := some day, issuedAt := some 0 }

/-- A well-signed token carrying no issued-at claim. -/
def noIatTok : Token :=
  signedToken "k" { subject := "42", email := "u@example.com",
                    expiresAt := some day, issuedAt := none }

/-- An otherwise well-formed token whose header declares RS256. -/
def otherAlgTok : Token :=
  { alg := .other "RS256"
    claims := { subject := "42", email := "u@example.com",
                expiresAt := some day, issuedAt := some 0 }
    sig := ⟨.other "RS256", "k",
            { subject := "42", email := "u@example.com",
              expiresAt := some day, issuedAt := some 0 }⟩ }

/-- The rate-limiter call sequence of the spec scenario: ten calls for
key a inside the window, an eleventh call for a, one call for b, and a
call for a after the window has elapsed. -/
def calls3 : List (String × Int) :=
  ((List.range 10).map (fun i => ("a", (i : Int)))) ++
    [("a", 10), ("b", 11), ("a", 60000011)]

/-! ## Theorems -/

/-- C2: a token whose header declares any signing algorithm other than
the single configured HMAC-SHA256 is rejected by ValidateToken with
ErrTokenInvalid (under a configured, nonempty secret), even when it is
otherwise well-formed, and its claims are never returned. -/
theorem validateToken_rejects_foreign_alg (secret : String) (tok : Token)
    (now : Nat) (hs : secret ≠ "") (halg : tok.alg ≠ Alg.HS256) :
    ValidateToken secret tok now = .error .tokenInvalid ∧
    ∀ c : Claims, ValidateToken secret tok now ≠ .ok c := by
  have h : ValidateToken secret tok now = .error .tokenInvalid := by
    unfold ValidateToken
    rw [if_neg hs, if_pos halg]
  exact ⟨h, fun c hc => by rw [h] at hc; exact Except.noConfusion hc⟩

/-- Witness for C2 at the RS256-declaring token otherAlgTok. -/
theorem validateToken_rejects_foreign_alg_witness :
    ValidateToken "k" otherAlgTok 0 = .error .tokenInvalid :=
  (validateToken_rejects_foreign_alg "k" otherAlgTok 0 (by decide)
    (by decide)).1

/-- C4: when the token parses and signature-verifies but the
revocation-store lookup fails, ValidateTokenFull returns the store error
and never returns the claims: validation fails closed. -/
theorem validateTokenFull_store_failure_fails_closed (s : Service)
    (repo : Nat → Except String Nat) (tok : Token) (now : Nat)
    (claims : Claims) (uid : Nat) (e : String)
    (hval : ValidateToken s.jwtSecret tok now = .ok claims)
    (hsub : parseUint64 claims.subject = some uid)
    (hrepo : repo uid = .error e) :
    s.ValidateTokenFull repo tok now = .error (.storeError e) ∧
    ∀ c : Claims, s.ValidateTokenFull repo tok now ≠ .ok c := by
  have h : s.ValidateTokenFull repo tok now = .error (.storeError e) := by
    simp only [Service.ValidateTokenFull, hval, hsub, hrepo]
  exact ⟨h, fun c hc => by rw [h] at hc; exact Except.noConfusion hc⟩

/-- Witness for C4 at the crafted token and the failing repository. -/
theorem validateTokenFull_store_failure_fails_closed_witness :
    Service.ValidateTokenFull svc repoErr (craftedTok 3000000) 10 =
      .error (.storeError "db down") :=
  (validateTokenFull_store_failure_fails_closed svc repoErr
    (craftedTok 3000000) 10 (craftedTok 3000000).claims 42 "db down"
    rfl rfl rfl).1

/-- C9: a token that parses and signature-verifies but carries no
issued-at claim skips the revocation comparison entirely:
ValidateTokenFull returns its claims even when the stored mark is
non-zero, and can never produce ErrTokenRevoked. -/
theorem validateTokenFull_missing_iat_skips_revocation (s : Service)
    (repo : Nat → Except String Nat) (tok : Token) (now : Nat)
    (claims : Claims) (uid validAfter : Nat)
    (hval : ValidateToken s.jwtSecret tok now = .ok claims)
    (hsub : parseUint64 claims.subject = some uid)
    (hrepo : repo uid = .ok validAfter)
    (hiat : claims.issuedAt = none) :
    s.ValidateTokenFull repo tok now = .ok claims ∧
    s.ValidateTokenFull repo tok now ≠ .error .tokenRevoked := by
  have h : s.ValidateTokenFull repo tok now = .ok claims := by
    simp only [Service.ValidateTokenFull, hval, hsub, hrepo, hiat, ite_self]
  exact ⟨h, fun hc => by rw [h] at hc; exact Except.noConfusion hc⟩

/-- Witness for C9 at a no-issued-at token against the non-zero mark of
principal 42. -/
theorem validateTokenFull_missing_iat_skips_revocation_witness :
    Service.ValidateTokenFull svc repo42 noIatTok 10 = .ok noIatTok.claims :=
  (validateTokenFull_missing_iat_skips_revocation svc repo42 noIatTok 10
    noIatTok.claims 42 (5 * usecPerSec) rfl rfl rfl rfl).1

/-- C1: for a token that parses and signature-verifies, whose subject
parses to a principal and whose mark lookup succeeds, ValidateTokenFull
fails with ErrTokenRevoked exactly when the stored mark is non-zero and
the issued-at truncated to whole seconds plus the tolerance is strictly
before the mark truncated to whole seconds; otherwise it returns the
claims. In the spec scenario (principal 42, mark at 5s, tolerance 2s)
the token issued at t = 0 is revoked and the tokens issued at t = 4s and
t = 6s are accepted. -/
theorem validateTokenFull_revoked_iff (s : Service)
    (repo : Nat → Except String Nat) (tok : Token) (now : Nat)
    (claims : Claims) (uid validAfter iat : Nat)
    (hval : ValidateToken s.jwtSecret tok now = .ok claims)
    (hsub : parseUint64 claims.subject = some uid)
    (hrepo : repo uid = .ok validAfter)
    (hiat : claims.issuedAt = some iat) :
    (s.ValidateTokenFull repo tok now = .error .tokenRevoked ↔
      (validAfter ≠ 0 ∧
        truncSec iat + s.revocationTolerance < truncSec validAfter)) ∧
    (¬ (validAfter ≠ 0 ∧
        truncSec iat + s.revocationTolerance < truncSec validAfter) →
      s.ValidateTokenFull repo tok now = .ok claims) ∧
    (CreateTokenWithIssuedAt "k" 42 "u@example.com" 0 day = .ok (tokAt 0) ∧
      Service.ValidateTokenFull svc repo42 (tokAt 0) hourU =
        .error .tokenRevoked) ∧
    Service.ValidateTokenFull svc repo42 (tokAt (4 * usecPerSec)) hourU =
      .ok (tokAt (4 * usecPerSec)).claims ∧
    Service.ValidateTokenFull svc repo42 (tokAt (6 * usecPerSec)) hourU =
      .ok (tokAt (6 * usecPerSec)).claims := by
  have key : s.ValidateTokenFull repo tok now =
      (if validAfter ≠ 0 ∧
          truncSec iat + s.revocationTolerance < truncSec validAfter
       then .error .tokenRevoked else .ok claims) := by
    simp only [Service.ValidateTokenFull, hval, hsub, hrepo, hiat]
    by_cases h0 : validAfter ≠ 0 <;>
      by_cases h1 : truncSec iat + s.revocationTolerance < truncSec validAfter <;>
      simp [h0, h1]
  refine ⟨?_, ?_, ⟨rfl, rfl⟩, rfl, rfl⟩
  · rw [key]
    by_cases hc : validAfter ≠ 0 ∧
        truncSec iat + s.revocationTolerance < truncSec validAfter
    · simp [hc]
    · simp only [if_neg hc]
      exact ⟨fun h => absurd h (fun hh => Except.noConfusion hh),
        fun h => absurd h hc⟩
  · intro hc; rw [key, if_neg hc]

/-- Witness for C1 at the scenario token issued at t = 0. -/
theorem validateTokenFull_revoked_iff_witness :
    Service.ValidateTokenFull svc repo42 (tokAt 0) hourU =
      .error .tokenRevoked :=
  ((validateTokenFull_revoked_iff svc repo42 (tokAt 0) hourU (tokAt 0).claims
    42 (5 * usecPerSec) 0 rfl rfl rfl rfl).1).mpr (by decide)

/-- C5 counterexample: at a valid token whose subject parses, a failing
store lookup is returned as the store error, not as ErrTokenInvalid, so
the claim that the store-lookup failure mode yields TokenInvalid is
false as stated. -/
theorem storeError_is_not_tokenInvalid_cex :
    ValidateToken svc.jwtSecret (craftedTok 3000000) 10 =
      .ok (craftedTok 3000000).claims ∧
    parseUint64 (craftedTok 3000000).claims.subject = some 42 ∧
    repoErr 42 = .error "db down" ∧
    Service.ValidateTokenFull svc repoErr (craftedTok 3000000) 10 =
      .error (.storeError "db down") ∧
    Service.ValidateTokenFull svc repoErr (craftedTok 3000000) 10 ≠
      .error .tokenInvalid :=
  ⟨rfl, rfl, rfl, rfl, by decide⟩

/-- C5 amended: ValidateTokenFull fails with ErrTokenInvalid when the
subject cannot be parsed as a principal ID; when the revocation-store
lookup errors it fails with that store error propagated unchanged,
which is not ErrTokenInvalid. -/
theorem validateTokenFull_error_paths (s : Service)
    (repo : Nat → Except String Nat) (tok : Token) (now : Nat)
    (claims : Claims)
    (hval : ValidateToken s.jwtSecret tok now = .ok claims) :
    (parseUint64 claims.subject = none →
      s.ValidateTokenFull repo tok now = .error .tokenInvalid) ∧
    (∀ uid e, parseUint64 claims.subject = some uid → repo uid = .error e →
      s.ValidateTokenFull repo tok now = .error (.storeError e) ∧
      s.ValidateTokenFull repo tok now ≠ .error .tokenInvalid) := by
  constructor
  · intro hsub
    simp only [Service.ValidateTokenFull, hval, hsub]
  · intro uid e hsub hrepo
    have h : s.ValidateTokenFull repo tok now = .error (.storeError e) := by
      simp only [Service.ValidateTokenFull, hval, hsub, hrepo]
    refine ⟨h, fun hc => ?_⟩
    rw [h] at hc
    exact SvcError.noConfusion (Except.error.inj hc)

/-- Witness for the amended C5: the unparseable-subject token yields
TokenInvalid; the failing store yields the propagated store error. -/
theorem validateTokenFull_error_paths_witness :
    Service.ValidateTokenFull svc repo42 badSubTok 10 = .error .tokenInvalid ∧
    Service.ValidateTokenFull svc repoErr (craftedTok 3000000) 10 =
      .error (.storeError "db down") :=
  ⟨(validateTokenFull_error_paths svc repo42 badSubTok 10
      badSubTok.claims rfl).1 rfl,
   ((validateTokenFull_error_paths svc repoErr (craftedTok 3000000) 10
      (craftedTok 3000000).claims rfl).2 42 "db down" rfl rfl).1⟩

/-- C6: issue-then-parse round-trip: for every principal ID, email,
issued-at and nonempty secret, the token produced by
CreateTokenWithIssuedAt is accepted by ValidateToken under the same
secret before expiry, with subject the decimal rendering of the
principal ID and the email returned exactly. -/
theorem parse_issue_roundtrip (secret : String) (uid : Nat) (email : String)
    (iat expiry now : Nat) (hs : secret ≠ "")
    (hexp : now < truncSec (iat + expiry)) :
    ∃ tok claims,
      CreateTokenWithIssuedAt secret uid email iat expiry = .ok tok ∧
      ValidateToken secret tok now = .ok claims ∧
      claims.subject = Nat.repr uid ∧ claims.email = email := by
  refine ⟨signedToken secret (issueClaims uid email iat expiry),
    issueClaims uid email iat expiry, ?_, ?_, rfl, rfl⟩
  · unfold CreateTokenWithIssuedAt
    rw [if_neg hs]
  · simp [ValidateToken, signedToken, issueClaims, hs, hexp]

/-- Witness for C6 at secret "k", principal 7, a 1s lifetime, validated
at the instant of issuance. -/
theorem parse_issue_roundtrip_witness :
    ("k" ≠ "" ∧ (0 : Nat) < truncSec (0 + usecPerSec)) ∧
    ∃ tok claims,
      CreateTokenWithIssuedAt "k" 7 "e@x" 0 usecPerSec = .ok tok ∧
      ValidateToken "k" tok 0 = .ok claims ∧
      claims.subject = Nat.repr 7 ∧ claims.email = "e@x" :=
  ⟨⟨by decide, by decide⟩,
   parse_issue_roundtrip "k" 7 "e@x" 0 usecPerSec 0 (by decide) (by decide)⟩

/-- Truncation kills a remainder strictly below one second. -/
theorem truncSec_add_rem (j r : Nat) (hr : r < usecPerSec) :
    truncSec (j * usecPerSec + r) = j * usecPerSec := by
  unfold truncSec usecPerSec at *
  omega

/-- Whole-second instants are fixed by truncation. -/
theorem truncSec_mul (j : Nat) : truncSec (j * usecPerSec) = j * usecPerSec := by
  have h := truncSec_add_rem j 0 (by decide)
  simpa using h

/-- C7 counterexample: with the stored mark at the fractional-second
instant 5.5s and tolerance 2s, the crafted token issued exactly one
microsecond before the tolerance boundary (issuedAt 3.499999s) is
accepted by ValidateTokenFull, while the claim demands ErrTokenRevoked:
sub-second truncation absorbs the one-microsecond step. -/
theorem tolerance_boundary_subsecond_cex :
    svc.revocationTolerance = 2 * usecPerSec ∧
    repoFrac 42 = .ok 5500000 ∧
    (craftedTok 3499999).claims.issuedAt =
      some (5500000 - 2 * usecPerSec - 1) ∧
    ValidateToken svc.jwtSecret (craftedTok 3499999) 10 =
      .ok (craftedTok 3499999).claims ∧
    Service.ValidateTokenFull svc repoFrac (craftedTok 3499999) 10 =
      .ok (craftedTok 3499999).claims ∧
    Service.ValidateTokenFull svc repoFrac (craftedTok 3499999) 10 ≠
      .error .tokenRevoked :=
  ⟨rfl, rfl, rfl, rfl, rfl, by decide⟩

/-- C7 amended: when the stored mark and the tolerance are whole-second
instants (mark a seconds, tolerance b seconds, b < a), a token whose
issued-at is exactly the tolerance before the mark is accepted by
ValidateTokenFull, and a token whose issued-at is one microsecond
further back is rejected with ErrTokenRevoked. The restriction to
whole-second values is forced by the counterexample: truncation absorbs
sub-second components of the mark. -/
theorem tolerance_boundary_whole_second (s : Service)
    (repo : Nat → Except String Nat) (now : Nat) (a b : Nat)
    (tokB tokB1 : Token) (cB cB1 : Claims) (uid : Nat)
    (hTol : s.revocationTolerance = b * usecPerSec)
    (hab : b < a)
    (hvB : ValidateToken s.jwtSecret tokB now = .ok cB)
    (hsubB : parseUint64 cB.subject = some uid)
    (hiatB : cB.issuedAt = some (a * usecPerSec - b * usecPerSec))
    (hvB1 : ValidateToken s.jwtSecret tokB1 now = .ok cB1)
    (hsubB1 : parseUint64 cB1.subject = some uid)
    (hiatB1 : cB1.issuedAt = some (a * usecPerSec - b * usecPerSec - 1))
    (hrepo : repo uid = .ok (a * usecPerSec)) :
    s.ValidateTokenFull repo tokB now = .ok cB ∧
    s.ValidateTokenFull repo tokB1 now = .error .tokenRevoked := by
  have hne0 : a * usecPerSec ≠ 0 := by
    unfold usecPerSec
    omega
  have hcond1 : ¬ (truncSec (a * usecPerSec - b * usecPerSec) +
      b * usecPerSec < truncSec (a * usecPerSec)) := by
    unfold truncSec usecPerSec
    omega
  have hcond2 : truncSec (a * usecPerSec - b * usecPerSec - 1) +
      b * usecPerSec < truncSec (a * usecPerSec) := by
    unfold truncSec usecPerSec
    omega
  constructor
  · simp only [Service.ValidateTokenFull, hvB, hsubB, hrepo, hiatB, hTol]
    rw [if_pos hne0, if_neg hcond1]
  · simp only [Service.ValidateTokenFull, hvB1, hsubB1, hrepo, hiatB1, hTol]
    rw [if_pos hne0, if_pos hcond2]

/-- Witness for the amended C7: mark 5s, tolerance 2s, tokens issued at
3s and at 3s minus one microsecond. -/
theorem tolerance_boundary_whole_second_witness :
    Service.ValidateTokenFull svc repo42 (craftedTok 3000000) 10 =
      .ok (craftedTok 3000000).claims ∧
    Service.ValidateTokenFull svc repo42 (craftedTok 2999999) 10 =
      .error .tokenRevoked :=
  tolerance_boundary_whole_second svc repo42 10 5 2
    (craftedTok 3000000) (craftedTok 2999999)
    (craftedTok 3000000).claims (craftedTok 2999999).claims 42
    rfl (by decide) rfl rfl rfl rfl rfl rfl rfl

/-- C8: clientIP resolves the rate-limit key exactly as claimed: with
the trust-proxy flag set, the trimmed X-Real-IP value when it parses as
an IP, otherwise the first comma-separated X-Forwarded-For address when
it parses as an IP, otherwise the transport-level peer address; with the
flag unset, forwarded headers are ignored entirely and the key is always
the transport-level peer address. Stated as extensional equality with
resolveClientKeySpec, for any IP predicate rejecting the empty string
(net.ParseIP does). -/
theorem clientIP_matches_resolveClientKeySpec (trustProxy : Bool)
    (parseIP : String → Bool) (splitHost : String → Option String)
    (r : Request) (hempty : parseIP "" = false) :
    clientIP trustProxy parseIP splitHost r =
      resolveClientKeySpec trustProxy parseIP splitHost r ∧
    (trustProxy = false →
      clientIP trustProxy parseIP splitHost r = remotePeer splitHost r) := by
  constructor
  · cases trustProxy with
    | false => rfl
    | true =>
      show (if trimSpace r.xRealIP ≠ "" ∧ parseIP (trimSpace r.xRealIP) then
          trimSpace r.xRealIP
        else if trimSpace r.xForwardedFor ≠ "" ∧
            trimSpace (beforeComma (trimSpace r.xForwardedFor)) ≠ "" ∧
            parseIP (trimSpace (beforeComma (trimSpace r.xForwardedFor))) then
          trimSpace (beforeComma (trimSpace r.xForwardedFor))
        else remotePeer splitHost r) =
        (if parseIP (trimSpace r.xRealIP) then trimSpace r.xRealIP
         else if parseIP (trimSpace (beforeComma (trimSpace r.xForwardedFor)))
           then trimSpace (beforeComma (trimSpace r.xForwardedFor))
         else remotePeer splitHost r)
      by_cases hx : parseIP (trimSpace r.xRealIP) = true
      · have hne : trimSpace r.xRealIP ≠ "" := by
          intro h0
          rw [h0, hempty] at hx
          exact Bool.noConfusion hx
        rw [if_pos ⟨hne, hx⟩, if_pos hx]
      · rw [if_neg (fun hcon => hx hcon.2), if_neg hx]
        by_cases hf :
            parseIP (trimSpace (beforeComma (trimSpace r.xForwardedFor))) = true
        · have hfne : trimSpace (beforeComma (trimSpace r.xForwardedFor)) ≠ "" := by
            intro h0
            rw [h0, hempty] at hf
            exact Bool.noConfusion hf
          have hs2 : trimSpace r.xForwardedFor ≠ "" := by
            intro h0
            rw [h0] at hfne
            exact hfne rfl
          rw [if_pos ⟨hs2, hfne, hf⟩, if_pos hf]
        · rw [if_neg (fun hcon => hf hcon.2.2), if_neg hf]
  · intro h
    subst h
    rfl

/-- Witness for C8 at a concrete request, IP predicate and host
splitter. -/
theorem clientIP_matches_resolveClientKeySpec_witness :
    clientIP true (fun s => s = "1.2.3.4" || s = "5.6.7.8")
      (fun s => if s = "10.0.0.1:443" then some "10.0.0.1" else none)
      { xRealIP := " 1.2.3.4 ", xForwardedFor := "5.6.7.8, 9.9.9.9",
        remoteAddr := "10.0.0.1:443" } =
    resolveClientKeySpec true (fun s => s = "1.2.3.4" || s = "5.6.7.8")
      (fun s => if s = "10.0.0.1:443" then some "10.0.0.1" else none)
      { xRealIP := " 1.2.3.4 ", xForwardedFor := "5.6.7.8, 9.9.9.9",
        remoteAddr := "10.0.0.1:443" } :=
  (clientIP_matches_resolveClientKeySpec true
    (fun s => s = "1.2.3.4" || s = "5.6.7.8")
    (fun s => if s = "10.0.0.1:443" then some "10.0.0.1" else none)
    { xRealIP := " 1.2.3.4 ", xForwardedFor := "5.6.7.8, 9.9.9.9",
      remoteAddr := "10.0.0.1:443" } (by decide)).1

/-- C3: with window 60s and max 10, the first ten allow calls for key a
succeed, the eleventh inside the window is denied, a call for the
different key b while a is exhausted succeeds, and a call for a after
the window has elapsed succeeds again; moreover the admission decision
of allow depends only on the recorded timestamps of the key being asked
about (with the shared window and limit), so one key reaching its limit
never changes the decision for another key. -/
theorem rateLimiter_scenario_and_key_independence :
    ((Limiter.init 60000000 10).run calls3).1 =
      [true, true, true, true, true, true, true, true, true, true,
       false, true, true] ∧
    (∀ l1 l2 : Limiter, ∀ k : String, ∀ now : Int,
      l1.requests k = l2.requests k → l1.window = l2.window →
      l1.maxReq = l2.maxReq →
      (l1.allow k now).1 = (l2.allow k now).1) := by
  refine ⟨rfl, ?_⟩
  intro l1 l2 k now hreq hw hm
  by_cases hc : l2.maxReq ≤ (keepAfter (now - l2.window) (l2.requests k)).length
  · simp [Limiter.allow, hreq, hw, hm, hc]
  · simp [Limiter.allow, hreq, hw, hm, hc]

/-- Witness for C3: the decision for key b is the same in a fresh
limiter and in a limiter already holding a timestamp for key a. -/
theorem rateLimiter_scenario_and_key_independence_witness :
    ((Limiter.init 60000000 10).allow "b" 11).1 =
      (({ requests := updateMap (fun _ => []) "a" [0], window := 60000000,
          maxReq := 10 } : Limiter).allow "b" 11).1 :=
  (rateLimiter_scenario_and_key_independence).2 (Limiter.init 60000000 10)
    { requests := updateMap (fun _ => []) "a" [0], window := 60000000,
      maxReq := 10 }
    "b" 11 rfl rfl rfl

/-- One allow call leaves the configured limit unchanged. -/
theorem allow_snd_maxReq (l : Limiter) (ip : String) (now : Int) :
    ((l.allow ip now).2).maxReq = l.maxReq := by
  simp only [Limiter.allow]
  split
  · rfl
  · rfl

/-- keepAfter never lengthens a list. -/
theorem keepAfter_length_le (cutoff : Int) (xs : List Int) :
    (keepAfter cutoff xs).length ≤ xs.length :=
  List.length_filter_le _ xs

/-- One allow call preserves the per-key length bound: a timestamp is
appended only when the pruned list is strictly shorter than the limit,
and pruning only removes entries. -/
theorem allow_preserves_bound (l : Limiter) (ip : String) (now : Int)
    (h : ∀ q, (l.requests q).length ≤ l.maxReq) :
    ∀ q, (((l.allow ip now).2).requests q).length ≤ l.maxReq := by
  intro q
  unfold Limiter.allow
  by_cases hc : l.maxReq ≤ (keepAfter (now - l.window) (l.requests ip)).length
  · rw [if_pos hc]
    show ((updateMap l.requests ip
      (keepAfter (now - l.window) (l.requests ip))) q).length ≤ l.maxReq
    unfold updateMap
    by_cases hq : q = ip
    · rw [if_pos hq]
      exact le_trans (keepAfter_length_le _ _) (h ip)
    · rw [if_neg hq]
      exact h q
  · rw [if_neg hc]
    show ((updateMap
      (if (keepAfter (now - l.window) (l.requests ip)).length = 0 then
        pruneIdleKeys (now - l.window) (updateMap l.requests ip [])
      else l.requests) ip
      (keepAfter (now - l.window) (l.requests ip) ++ [now])) q).length ≤
        l.maxReq
    unfold updateMap
    by_cases hq : q = ip
    · rw [if_pos hq]
      rw [List.length_append]
      have hlt : (keepAfter (now - l.window) (l.requests ip)).length <
          l.maxReq := Nat.lt_of_not_le hc
      simpa using hlt
    · rw [if_neg hq]
      by_cases hz : (keepAfter (now - l.window) (l.requests ip)).length = 0
      · rw [if_pos hz]
        unfold pruneIdleKeys
        simp only [if_neg hq]
        exact le_trans (keepAfter_length_le _ _) (h q)
      · rw [if_neg hz]
        exact h q

/-- Running any call sequence preserves the per-key length bound. -/
theorem run_preserves_bound (calls : List (String × Int)) (l : Limiter)
    (h : ∀ q, (l.requests q).length ≤ l.maxReq) :
    ∀ q, (((l.run calls).2).requests q).length ≤ l.maxReq := by
  induction calls generalizing l with
  | nil => exact h
  | cons c rest ih =>
    obtain ⟨ip, now⟩ := c
    intro q
    show ((((l.allow ip now).2).run rest).2.requests q).length ≤ l.maxReq
    have hstep := allow_preserves_bound l ip now h
    have hmax := allow_snd_maxReq l ip now
    have hrec := ih (l.allow ip now).2 (fun q2 => by rw [hmax]; exact hstep q2)
    rw [← hmax]
    exact hrec q

/-- C10: limiter memory invariant: for every limit of at least one,
starting from the empty request map, after any sequence of allow calls
every stored per-key timestamp list has length at most the limit. -/
theorem limiter_timestamps_bounded (window : Int) (maxReq : Nat)
    (_hmax : 1 ≤ maxReq) (calls : List (String × Int)) (k : String) :
    ((((Limiter.init window maxReq).run calls).2).requests k).length ≤
      maxReq :=
  run_preserves_bound calls (Limiter.init window maxReq)
    (fun _ => Nat.zero_le _) k

/-- Witness for C10 at limit one and three repeated calls. -/
theorem limiter_timestamps_bounded_witness :
    1 ≤ 1 ∧
    ((((Limiter.init 5 1).run [("a", 0), ("a", 1), ("a", 2)]).2).requests
      "a").length ≤ 1 :=
  ⟨by decide,
   limiter_timestamps_bounded 5 1 (by decide) [("a", 0), ("a", 1), ("a", 2)]
     "a"⟩

end Zabaan
